import Mathlib

/-
Verification of the lucy HTTP debugging proxy (Go).

This file gives a shallow embedding, in Lean 4, of the parts of the proxy
that the specification's claims are about:

* `isHopByHopHeader`, header forwarding (`createForwardedRequest`'s copy loop),
* `decompressIfNeeded` (display-only gzip decompression, parameterized over
  the external compress/gzip library),
* `readLimitedBody` (io.ReadAll over io.LimitReader),
* `isBinaryContent` and the response-body display choice of `logHTTPResponse`,
* `buildTargetURL` together with the serialization behavior of
  net/url's URL.String for the URL values the proxy constructs,
* the request/response phases of `handleHTTP` and the CONNECT handler
  `handleHTTPS`.

Go byte strings are modelled as `List Nat` (byte values), Go strings of text
as Lean `String`; string functions from the Go standard library are embedded
restricted to ASCII, which is the character range of HTTP header names,
header values, hosts and request paths on the wire.
-/

namespace Lucy

/-- A Go byte: a natural number (0..255 on real inputs). -/
abbrev Byte := Nat

/-! ### ASCII case folding (strings.EqualFold restricted to ASCII) -/

/-- Lower-case an ASCII character; other characters unchanged. -/
def asciiLower (c : Char) : Char :=
  if 65 ≤ c.toNat ∧ c.toNat ≤ 90 then Char.ofNat (c.toNat + 32) else c

/-- Upper-case an ASCII character; other characters unchanged. -/
def asciiUpper (c : Char) : Char :=
  if 97 ≤ c.toNat ∧ c.toNat ≤ 122 then Char.ofNat (c.toNat - 32) else c

/-- Go strings.EqualFold, restricted to ASCII strings (HTTP header
names are ASCII tokens, so simple Unicode folding coincides with
ASCII case folding on every input the proxy sees). -/
def goEqualFold (s t : String) : Bool :=
  s.data.map asciiLower == t.data.map asciiLower

/-! ### Hop-by-hop header classification (isHopByHopHeader) -/

/-- The fixed hop-by-hop list from the source (note the Go source spells
the TE entry "Te"; the comparison is case-insensitive). -/
def hopByHopHeaders : List String :=
  ["Connection", "Keep-Alive", "Proxy-Authenticate",
   "Proxy-Authorization", "Te", "Trailers", "Transfer-Encoding", "Upgrade"]

/-- isHopByHopHeader: true iff the name case-insensitively equals one of
the fixed hop-by-hop names. -/
def isHopByHopHeader (name : String) : Bool :=
  hopByHopHeaders.any (fun h => goEqualFold name h)

/-! ### Header multimaps and http.Header.Get -/

/-- A header multimap: each name mapped to its ordered list of values.
Go's http.Header is a map; parsed requests/responses store canonical keys. -/
abbrev Header := List (String × List String)

/-- Go textproto validHeaderFieldByte: RFC 7230 token characters. -/
def validHeaderFieldChar (c : Char) : Bool :=
  decide ((48 ≤ c.toNat ∧ c.toNat ≤ 57) ∨ (65 ≤ c.toNat ∧ c.toNat ≤ 90) ∨
    (97 ≤ c.toNat ∧ c.toNat ≤ 122) ∨ c.toNat = 33 ∨ c.toNat = 35 ∨
    c.toNat = 36 ∨ c.toNat = 37 ∨ c.toNat = 38 ∨ c.toNat = 39 ∨
    c.toNat = 42 ∨ c.toNat = 43 ∨ c.toNat = 45 ∨ c.toNat = 46 ∨
    c.toNat = 94 ∨ c.toNat = 95 ∨ c.toNat = 96 ∨ c.toNat = 124 ∨
    c.toNat = 126)

/-- The canonicalization loop of textproto CanonicalMIMEHeaderKey:
upper-case the first letter and each letter following a hyphen,
lower-case the rest. -/
def canonicalizeChars : Bool → List Char → List Char
  | _, [] => []
  | upper, c :: rest =>
    let c' := if upper then asciiUpper c else asciiLower c
    c' :: canonicalizeChars (c' == '-') rest

/-- textproto CanonicalMIMEHeaderKey: canonicalize a valid token name,
return invalid names unchanged. -/
def canonicalMIMEHeaderKey (s : String) : String :=
  if s.data.all validHeaderFieldChar then ⟨canonicalizeChars true s.data⟩ else s

/-- http.Header.Get: first value stored under the canonical form of the
key, or the empty string. -/
def headerGet (h : Header) (key : String) : String :=
  match h.find? (fun p => p.1 == canonicalMIMEHeaderKey key) with
  | some (_, v :: _) => v
  | _ => ""

/-! ### Display-only gzip decompression (decompressIfNeeded) -/

/-- The interface of the external compress/gzip library as used by the
source: gzip.NewReader may fail (bad header), and io.ReadAll on the
reader may fail (corrupt stream). The proxy's behavior is embedded
uniformly over any such library. -/
structure GzipLib (R : Type) where
  newReader : List Byte → Except String R
  readAll : R → Except String (List Byte)

/-- decompressIfNeeded: if the Content-Encoding header value is exactly
"gzip", try to decompress for display; on failure at either stage return
the original bytes; otherwise return the bytes unchanged. -/
def decompressIfNeeded {R : Type} (gz : GzipLib R)
    (body : List Byte) (headers : Header) : List Byte :=
  if headerGet headers "Content-Encoding" == "gzip" then
    match gz.newReader body with
    | .error _ => body
    | .ok r =>
      match gz.readAll r with
      | .error _ => body
      | .ok data => data
  else body

/-! ### Bounded body reading (readLimitedBody) -/

/-- A byte source: the bytes the underlying stream will yield, and the
error (if any) it reports after yielding them (none = clean EOF). -/
structure ByteSource where
  bytes : List Byte
  errAfter : Option String

/-- readLimitedBody = io.ReadAll(io.LimitReader(reader, maxSize)).
The LimitReader yields at most maxSize bytes and then reports EOF
without touching the underlying reader, so io.ReadAll returns the
first maxSize bytes with a nil error whenever the source has at least
maxSize bytes; the source's own error is observed only when the source
is exhausted before the limit is reached. -/
def readLimitedBody (src : ByteSource) (maxSize : Nat) :
    List Byte × Option String :=
  (src.bytes.take maxSize,
   if maxSize ≤ src.bytes.length then none else src.errAfter)

/-! ### Binary-content detection and the response display choice -/

/-- The per-byte test of isBinaryContent:
b == 0 || (b < 32 && b != tab && b != newline && b != cr) || b > 126. -/
def isNonPrintableByte (b : Byte) : Bool :=
  b == 0 || (decide (b < 32) && b != 9 && b != 10 && b != 13) || decide (b > 126)

/-- isBinaryContent: empty data is not binary; otherwise binary iff more
than 20% of the bytes are non-printable. The source compares
float64(nonPrintable)/float64(len(data)) > 0.2; the ratio comparison is
embedded exactly, as 5 * nonPrintable > len(data). -/
def isBinaryContent (data : List Byte) : Bool :=
  if data.length == 0 then false
  else decide (5 * data.countP isNonPrintableByte > data.length)

/-- What logHTTPResponse prints for the body. -/
inductive BodyDisplay where
  | empty : BodyDisplay
  | placeholder (byteCount : Nat) : BodyDisplay
  | text (bytes : List Byte) : BodyDisplay
  deriving DecidableEq, Repr

/-- The body-display choice of logHTTPResponse: nothing when the body is
empty; a byte-count placeholder when isBinaryContent holds; otherwise the
formatted text (formatBody, which involves the external JSON library, is
abstracted as the fmt parameter). -/
def responseBodyDisplay (fmt : List Byte → List Byte)
    (body : List Byte) : BodyDisplay :=
  if body.length > 0 then
    if isBinaryContent body then .placeholder body.length
    else .text (fmt body)
  else .empty

/-! ### net/url serialization for the URL values the proxy constructs

`buildTargetURL` returns `r.URL.String()` for an absolute inbound target,
and otherwise serializes `url.URL{Scheme, Host, Path, RawQuery}` — a value
whose User, Opaque, RawPath, Fragment are zero and OmitHost/ForceQuery are
false. `urlString` below embeds URL.String restricted to that shape
(and to a non-empty scheme, which buildTargetURL always supplies). -/

/-- net/url shouldEscape for mode encodeHost, on ASCII characters:
alphanumerics, the host sub-delims !$&'()*+,;=:[]<>" and the
unreserved marks -_.~ stay; everything else is escaped. -/
def shouldEscapeHost (c : Char) : Bool :=
  if (97 ≤ c.toNat ∧ c.toNat ≤ 122) ∨ (65 ≤ c.toNat ∧ c.toNat ≤ 90) ∨
      (48 ≤ c.toNat ∧ c.toNat ≤ 57) then false
  else if c ∈ ['!', '$', '&', '\'', '(', ')', '*', '+', ',', ';', '=',
      ':', '[', ']', '<', '>', '"'] then false
  else if c ∈ ['-', '_', '.', '~'] then false
  else true

/-- net/url shouldEscape for mode encodePath, on ASCII characters:
alphanumerics and -_.~ stay; of the reserved set $&+,/:;=?@ only ? is
escaped; everything else is escaped. -/
def shouldEscapePath (c : Char) : Bool :=
  if (97 ≤ c.toNat ∧ c.toNat ≤ 122) ∨ (65 ≤ c.toNat ∧ c.toNat ≤ 90) ∨
      (48 ≤ c.toNat ∧ c.toNat ≤ 57) then false
  else if c ∈ ['-', '_', '.', '~'] then false
  else if c ∈ ['$', '&', '+', ',', '/', ':', ';', '=', '?', '@'] then c == '?'
  else true

/-- Upper-case hexadecimal digit, as used by net/url percent-escaping. -/
def upperHexDigit (n : Nat) : Char :=
  if n < 10 then Char.ofNat (48 + n) else Char.ofNat (55 + n)

/-- Percent-escape one character (ASCII: one byte). -/
def escapeChar (c : Char) : List Char :=
  ['%', upperHexDigit (c.toNat / 16 % 16), upperHexDigit (c.toNat % 16)]

/-- net/url escape: replace each character the mode escapes by its
percent-encoding (ASCII restriction: each character is one byte). -/
def escapeGo (shouldEsc : Char → Bool) (s : String) : String :=
  ⟨s.data.foldr (fun c acc => (if shouldEsc c then escapeChar c else [c]) ++ acc) []⟩

/-- URL.EscapedPath for a value with RawPath = "": "*" stays, any other
path is escaped in mode encodePath. -/
def escapedPath (p : String) : String :=
  if p == "*" then "*" else escapeGo shouldEscapePath p

/-- The URL value the proxy constructs for a relative inbound target. -/
structure GoURL where
  scheme : String
  host : String
  path : String
  rawQuery : String

/-- Does the string start with a slash? -/
def startsWithSlash (s : String) : Bool :=
  s.data.head? == some '/'

/-- URL.String restricted to the shape constructed by buildTargetURL
(non-empty scheme; User/Opaque/RawPath/Fragment zero, OmitHost and
ForceQuery false): scheme ":", then "//" when host or path is non-empty,
the escaped host, the escaped path (with a "/" inserted when a non-empty
path does not start with one and a host is present), then "?" RawQuery
when the query is non-empty. -/
def urlString (u : GoURL) : String :=
  let schemePart := u.scheme ++ ":"
  let slashes := if u.host ≠ "" ∨ u.path ≠ "" then "//" else ""
  let hostPart := if u.host ≠ "" then escapeGo shouldEscapeHost u.host else ""
  let p := escapedPath u.path
  let pathPart :=
    if p ≠ "" ∧ startsWithSlash p = false ∧ u.host ≠ "" then "/" ++ p else p
  let queryPart := if u.rawQuery ≠ "" then "?" ++ u.rawQuery else ""
  schemePart ++ slashes ++ hostPart ++ pathPart ++ queryPart

/-! ### Requests, responses and buildTargetURL -/

/-- The configuration record (all four fields; only MaxBodySize matters
to the embedded behavior). Durations are abstract tick counts. -/
structure Config where
  port : Nat
  requestTimeout : Nat
  serverTimeout : Nat
  maxBodySize : Nat

/-- The inbound request as the handlers see it. For an absolute inbound
target the source returns r.URL.String() unchanged; urlStr holds that
serialization. For a relative target the host, path and raw query fields
of r are used together with the TLS indicator. -/
structure Request where
  method : String
  urlIsAbs : Bool
  urlStr : String
  host : String
  path : String
  rawQuery : String
  tls : Bool
  headers : Header
  body : ByteSource

/-- buildTargetURL: an absolute inbound URL is used unchanged; otherwise
url.URL{Scheme, Host, Path, RawQuery}.String() with scheme https exactly
when the inbound connection arrived over TLS. (The error return of the
source is always nil.) -/
def buildTargetURL (r : Request) : String :=
  if r.urlIsAbs then r.urlStr
  else urlString
    { scheme := if r.tls then "https" else "http",
      host := r.host, path := r.path, rawQuery := r.rawQuery }

/-! ### Header forwarding (createForwardedRequest's copy loop) -/

/-- The header-copy loop of createForwardedRequest: starting from the
empty outbound header set, append each inbound entry whose name is not
hop-by-hop. -/
def forwardHeaders (inbound : Header) : Header :=
  inbound.foldl (fun acc p => if isHopByHopHeader p.1 then acc else acc ++ [p]) []

/-- The outbound request handed to the pooled client. -/
structure ForwardedRequest where
  method : String
  url : String
  headers : Header
  body : List Byte

/-- The origin's response as the client returns it. -/
structure OriginResponse where
  statusCode : Nat
  headers : Header
  body : ByteSource

/-! ### The HTTP forwarding pipeline (handleHTTP) -/

/-- Outcome of one HTTP cycle: either rejected via http.Error before the
origin bytes were forwarded, or forwarded with the origin's status code,
its headers copied verbatim, the raw body bytes written to the caller,
and the separate display copy used for the observability record. -/
inductive HTTPCycleResult where
  | rejected (status : Nat) (message : String) : HTTPCycleResult
  | forwarded (status : Nat) (headers : Header) (body : List Byte)
      (displayBody : List Byte) : HTTPCycleResult
  deriving DecidableEq

/-- The request side of handleHTTP: read the inbound body bounded by
MaxBodySize (rejecting with 413 Request Entity Too Large when the read
reports an error), then build the outbound request from the resolved
target URL, the inbound method, the bounded body and the sanitized
headers. -/
def requestPhase (cfg : Config) (r : Request) :
    Except (Nat × String) ForwardedRequest :=
  let read := readLimitedBody r.body cfg.maxBodySize
  match read.2 with
  | some _ => .error (413, "Request body too large")
  | none =>
    .ok { method := r.method, url := buildTargetURL r,
          headers := forwardHeaders r.headers, body := read.1 }

/-- The response side of handleHTTP: read the origin body bounded by
MaxBodySize (rejecting with 502 Bad Gateway when the read reports an
error), produce the display copy via decompressIfNeeded, and forward the
status, the headers verbatim and the raw bytes (forwardResponse). -/
def responsePhase {R : Type} (gz : GzipLib R) (cfg : Config)
    (resp : OriginResponse) : HTTPCycleResult :=
  let read := readLimitedBody resp.body cfg.maxBodySize
  match read.2 with
  | some _ => .rejected 502 "Response body too large"
  | none =>
    .forwarded resp.statusCode resp.headers read.1
      (decompressIfNeeded gz read.1 resp.headers)

/-- One whole HTTP cycle, with the outbound dispatch (client.Do) as a
parameter: a dispatch failure is rejected with 502 Bad Gateway. (The
unreachable error branches of buildTargetURL and of request creation for
a well-formed target are not taken.) -/
def handleHTTP {R : Type} (gz : GzipLib R) (cfg : Config)
    (doRequest : ForwardedRequest → Except String OriginResponse)
    (r : Request) : HTTPCycleResult :=
  match requestPhase cfg r with
  | .error (s, m) => .rejected s m
  | .ok req =>
    match doRequest req with
    | .error e => .rejected 502 ("Failed to make request: " ++ e)
    | .ok resp => responsePhase gz cfg resp

/-! ### The CONNECT handler (handleHTTPS) -/

/-- Observable events of one CONNECT session, in order. `wroteStatus` is
a status line actually emitted on the wire; `errorCall` records an
invocation of http.Error with the given code — its WriteHeader is
effective only if no status was written yet (Go ignores a second
WriteHeader), which the trace encodes by emitting `wroteStatus` only for
the first status write. -/
inductive ConnectEvent where
  | dialAttempt (host : String) : ConnectEvent
  | wroteStatus (code : Nat) : ConnectEvent
  | errorCall (code : Nat) (message : String) : ConnectEvent
  | tunnelStarted : ConnectEvent
  deriving DecidableEq

/-- The environment of one CONNECT session: the outcome net.DialTimeout
would produce, whether the ResponseWriter supports hijacking, and the
outcome of the Hijack call. -/
structure ConnectEnv where
  dialResult : Except String Unit
  hijackSupported : Bool
  hijackResult : Except String Unit

/-- handleHTTPS: dial the target first (unconditionally); on dial failure
reject with 502. On success write 200 OK, then check hijack support —
when unsupported, call http.Error with 500 (whose status write is
superfluous: 200 is already on the wire) and stop. Then hijack; on
failure just return; on success start the tunnel. -/
def handleHTTPS (env : ConnectEnv) (host : String) : List ConnectEvent :=
  ConnectEvent.dialAttempt host ::
    match env.dialResult with
    | .error _ =>
      [.errorCall 502 "Failed to connect to target", .wroteStatus 502]
    | .ok _ =>
      ConnectEvent.wroteStatus 200 ::
        if env.hijackSupported = false then
          [.errorCall 500 "Hijacking not supported"]
        else
          match env.hijackResult with
          | .error _ => []
          | .ok _ => [.tunnelStarted]

/-! ### Helper lemmas -/

/-- The header-copy loop is an append-accumulating filter. -/
theorem foldl_copy_eq_filter (l : Header) (acc : Header) :
    l.foldl (fun acc p => if isHopByHopHeader p.1 then acc else acc ++ [p]) acc
      = acc ++ l.filter (fun p => !isHopByHopHeader p.1) := by
  induction l generalizing acc with
  | nil => simp
  | cons p t ih =>
    by_cases h : isHopByHopHeader p.1
    · simp [List.foldl_cons, h, ih]
    · simp [List.foldl_cons, h, ih]

/-- Escaping is the identity on a character list none of whose characters
the mode escapes. -/
theorem foldr_escape_eq_self (f : Char → Bool) (l : List Char)
    (h : ∀ c ∈ l, f c = false) :
    l.foldr (fun c acc => (if f c then escapeChar c else [c]) ++ acc) [] = l := by
  induction l with
  | nil => rfl
  | cons c t ih =>
    have hc := h c (List.mem_cons_self c t)
    have ih' := ih (fun d hd => h d (List.mem_cons_of_mem c hd))
    simp [List.foldr_cons, hc, ih']

/-- escapeGo is the identity on a string none of whose characters the
mode escapes. -/
theorem escapeGo_eq_self (f : Char → Bool) (s : String)
    (h : ∀ c ∈ s.data, f c = false) : escapeGo f s = s := by
  ext1
  exact foldr_escape_eq_self f s.data h

/-- goEqualFold only depends on the folded form of its second argument. -/
theorem goEqualFold_congr (s : String) {t t' : String}
    (h : t.data.map asciiLower = t'.data.map asciiLower) :
    goEqualFold s t = goEqualFold s t' := by
  simp [goEqualFold, h]

/-- The per-byte classifier agrees with the claim's byte predicate:
NUL, or a control character other than tab/newline/carriage-return,
or above the printable ASCII range. -/
theorem isNonPrintableByte_eq (b : Byte) :
    isNonPrintableByte b =
      decide (b = 0 ∨ (b < 32 ∧ b ≠ 9 ∧ b ≠ 10 ∧ b ≠ 13) ∨ b > 126) := by
  rw [Bool.eq_iff_iff]
  simp only [isNonPrintableByte, Bool.or_eq_true, Bool.and_eq_true, beq_iff_eq,
    bne_iff_ne, decide_eq_true_eq]
  tauto

/-! ### Claim theorems -/

/-- C9: for every byte source and maximum size N, the bounded body reader
returns a prefix of the source of length at most N, and stopping at the
limit is not itself an error of the read primitive: whenever the source
has at least N bytes the read returns the N-byte prefix with no error. -/
theorem readLimitedBody_bounded (src : ByteSource) (n : Nat) :
    (readLimitedBody src n).1.length ≤ n ∧
    (readLimitedBody src n).1 <+: src.bytes ∧
    (n ≤ src.bytes.length → (readLimitedBody src n).2 = none) := by
  refine ⟨?_, ?_, ?_⟩
  · simp [readLimitedBody, List.length_take]
  · exact ⟨src.bytes.drop n, List.take_append_drop n src.bytes⟩
  · intro h
    simp [readLimitedBody, h]

/-- C9 witness: the bounded reader on the concrete source [1, 2, 3] with
limit 2 returns at most 2 bytes, a prefix, and no error. -/
theorem readLimitedBody_bounded_witness :
    (readLimitedBody ⟨[1, 2, 3], none⟩ 2).1.length ≤ 2 ∧
    (readLimitedBody ⟨[1, 2, 3], none⟩ 2).1 <+: [1, 2, 3] ∧
    (readLimitedBody ⟨[1, 2, 3], none⟩ 2).2 = none := by
  obtain ⟨h1, h2, h3⟩ := readLimitedBody_bounded ⟨[1, 2, 3], none⟩ 2
  exact ⟨h1, h2, h3 (by decide)⟩

/-- C8: the binary classifier returns true exactly when strictly more
than 20% of the bytes are NUL, or control characters other than
tab/newline/carriage-return, or above the printable ASCII range; and a
body so classified is displayed as a byte-count placeholder. -/
theorem isBinaryContent_spec (data : List Byte) (fmt : List Byte → List Byte) :
    (isBinaryContent data = true ↔
      5 * (data.countP fun b =>
        decide (b = 0 ∨ (b < 32 ∧ b ≠ 9 ∧ b ≠ 10 ∧ b ≠ 13) ∨ b > 126))
          > data.length) ∧
    (isBinaryContent data = true →
      responseBodyDisplay fmt data = .placeholder data.length) := by
  have hcount : data.countP isNonPrintableByte =
      data.countP fun b =>
        decide (b = 0 ∨ (b < 32 ∧ b ≠ 9 ∧ b ≠ 10 ∧ b ≠ 13) ∨ b > 126) :=
    List.countP_congr (fun b _ => by rw [isNonPrintableByte_eq])
  have hmain : isBinaryContent data = true ↔
      5 * (data.countP fun b =>
        decide (b = 0 ∨ (b < 32 ∧ b ≠ 9 ∧ b ≠ 10 ∧ b ≠ 13) ∨ b > 126))
          > data.length := by
    rw [← hcount]
    by_cases hlen : data.length = 0
    · have hnil : data = [] := List.length_eq_zero.mp hlen
      subst hnil
      simp [isBinaryContent]
    · simp [isBinaryContent, hlen]
  refine ⟨hmain, ?_⟩
  intro h
  have hlen : data.length ≠ 0 := by
    intro h0
    simp [isBinaryContent, h0] at h
  simp [responseBodyDisplay, h, Nat.pos_of_ne_zero hlen]

/-- C8 witness: the concrete body [0, 65, 65] (one NUL among three
bytes, 33% > 20%) is classified binary and displayed as a 3-byte
placeholder. -/
theorem isBinaryContent_spec_witness :
    responseBodyDisplay id [0, 65, 65] = BodyDisplay.placeholder 3 :=
  (isBinaryContent_spec [0, 65, 65] id).2 (by decide)

/-- C6: display-only gzip decompression is total with raw-bytes
fallback: whatever the gzip library does, when it fails at either stage
(reader construction or stream reading) the original bytes are returned,
and in every case the result is either the raw bytes or a successful
decompression — no error is ever propagated out of the display path. -/
theorem decompressIfNeeded_total_fallback {R : Type} (gz : GzipLib R)
    (body : List Byte) (headers : Header) :
    (∀ e, gz.newReader body = .error e →
      decompressIfNeeded gz body headers = body) ∧
    (∀ r e, gz.newReader body = .ok r → gz.readAll r = .error e →
      decompressIfNeeded gz body headers = body) ∧
    (decompressIfNeeded gz body headers = body ∨
      ∃ r d, gz.newReader body = .ok r ∧ gz.readAll r = .ok d ∧
        decompressIfNeeded gz body headers = d) := by
  refine ⟨?_, ?_, ?_⟩
  · intro e he
    simp only [decompressIfNeeded, he]
    split <;> rfl
  · intro r e hr he
    simp only [decompressIfNeeded, hr, he]
    split <;> rfl
  · by_cases hg : (headerGet headers "Content-Encoding" == "gzip") = true
    · cases hr : gz.newReader body with
      | error e =>
        exact Or.inl (by simp [decompressIfNeeded, hg, hr])
      | ok r =>
        cases ha : gz.readAll r with
        | error e =>
          exact Or.inl (by simp [decompressIfNeeded, hg, hr, ha])
        | ok d =>
          exact Or.inr ⟨r, d, rfl, ha, by simp [decompressIfNeeded, hg, hr, ha]⟩
    · exact Or.inl (by simp [decompressIfNeeded, hg])

/-- C6 witness: a gzip-declaring header with a library whose reader
construction fails on the concrete body [31, 139, 9] yields the original
bytes back. -/
theorem decompressIfNeeded_total_fallback_witness :
    decompressIfNeeded
      (⟨fun _ => .error "gzip: invalid header", fun _ => .error "eof"⟩ :
        GzipLib Unit)
      [31, 139, 9] [("Content-Encoding", ["gzip"])] = [31, 139, 9] :=
  (decompressIfNeeded_total_fallback
    (⟨fun _ => .error "gzip: invalid header", fun _ => .error "eof"⟩ :
      GzipLib Unit)
    [31, 139, 9] [("Content-Encoding", ["gzip"])]).1 "gzip: invalid header" rfl

/-- C10: decompression is attempted only when the Content-Encoding value
is exactly the lowercase string "gzip"; for any other value the body is
returned unchanged, whatever the gzip library would do. -/
theorem decompressIfNeeded_exact_match_only {R : Type} (gz : GzipLib R)
    (body : List Byte) (headers : Header)
    (h : headerGet headers "Content-Encoding" ≠ "gzip") :
    decompressIfNeeded gz body headers = body := by
  simp only [decompressIfNeeded]
  rw [if_neg]
  simp [h]

/-- C10 witness: with Content-Encoding value "GZIP" (wrong case) and a
library that would successfully decompress to different bytes, the body
[1, 2] is returned unchanged — no decompression happens. -/
theorem decompressIfNeeded_exact_match_only_witness :
    decompressIfNeeded
      (⟨fun _ => .ok (), fun _ => .ok [9, 9, 9]⟩ : GzipLib Unit)
      [1, 2] [("Content-Encoding", ["GZIP"])] = [1, 2] :=
  decompressIfNeeded_exact_match_only
    (⟨fun _ => .ok (), fun _ => .ok [9, 9, 9]⟩ : GzipLib Unit)
    [1, 2] [("Content-Encoding", ["GZIP"])] (by decide)

/-- The hop-by-hop names exactly as the claim spells them (TE in upper
case, where the source writes "Te"; the comparison is case-insensitive,
so the two lists classify the same names). -/
def claimHopByHopNames : List String :=
  ["Connection", "Keep-Alive", "Proxy-Authenticate",
   "Proxy-Authorization", "TE", "Trailers", "Transfer-Encoding", "Upgrade"]

/-- C4: the outbound header set contains none of the eight hop-by-hop
names under any letter case; it equals the inbound multimap filtered by
the hop-by-hop test (so values and their order are preserved); and every
inbound entry whose name is not hop-by-hop is copied to the outbound
set. -/
theorem forwardHeaders_spec (inbound : Header) :
    (∀ p ∈ forwardHeaders inbound, ∀ n ∈ claimHopByHopNames,
      goEqualFold p.1 n = false) ∧
    forwardHeaders inbound = inbound.filter (fun p => !isHopByHopHeader p.1) ∧
    (∀ p ∈ inbound, isHopByHopHeader p.1 = false →
      p ∈ forwardHeaders inbound) := by
  have hfilter : forwardHeaders inbound
      = inbound.filter (fun p => !isHopByHopHeader p.1) := by
    simpa using foldl_copy_eq_filter inbound []
  refine ⟨?_, hfilter, ?_⟩
  · intro p hp n hn
    rw [hfilter] at hp
    have hhop : isHopByHopHeader p.1 = false := by
      have hmem := (List.mem_filter.mp hp).2
      simpa using hmem
    have hall : ∀ h ∈ hopByHopHeaders, goEqualFold p.1 h = false := by
      intro h hh
      by_contra hc
      rw [Bool.not_eq_false] at hc
      have : isHopByHopHeader p.1 = true :=
        List.any_eq_true.mpr ⟨h, hh, hc⟩
      rw [this] at hhop
      cases hhop
    simp only [claimHopByHopNames, List.mem_cons, List.not_mem_nil,
      or_false] at hn
    rcases hn with rfl | rfl | rfl | rfl | rfl | rfl | rfl | rfl
    · exact hall "Connection" (by simp [hopByHopHeaders])
    · exact hall "Keep-Alive" (by simp [hopByHopHeaders])
    · exact hall "Proxy-Authenticate" (by simp [hopByHopHeaders])
    · exact hall "Proxy-Authorization" (by simp [hopByHopHeaders])
    · exact (goEqualFold_congr p.1
        (show ("TE" : String).data.map asciiLower
            = ("Te" : String).data.map asciiLower by decide)).trans
        (hall "Te" (by simp [hopByHopHeaders]))
    · exact hall "Trailers" (by simp [hopByHopHeaders])
    · exact hall "Transfer-Encoding" (by simp [hopByHopHeaders])
    · exact hall "Upgrade" (by simp [hopByHopHeaders])
  · intro p hp hhop
    rw [hfilter]
    exact List.mem_filter.mpr ⟨hp, by simp [hhop]⟩

/-- C4 witness: on a concrete inbound set, a lower-case "connection" and
an upper-case "TRANSFER-ENCODING" entry are dropped while the
Content-Type entry survives, and the survivor matches no hop-by-hop name. -/
theorem forwardHeaders_spec_witness :
    goEqualFold "Content-Type" "Connection" = false ∧
    ("Content-Type", ["text/html"]) ∈ forwardHeaders
      [("connection", ["keep-alive"]), ("Content-Type", ["text/html"]),
       ("TRANSFER-ENCODING", ["chunked"])] := by
  constructor
  · exact (forwardHeaders_spec
      [("connection", ["keep-alive"]), ("Content-Type", ["text/html"]),
       ("TRANSFER-ENCODING", ["chunked"])]).1
      ("Content-Type", ["text/html"]) (by decide) "Connection" (by decide)
  · exact (forwardHeaders_spec
      [("connection", ["keep-alive"]), ("Content-Type", ["text/html"]),
       ("TRANSFER-ENCODING", ["chunked"])]).2.2
      ("Content-Type", ["text/html"]) (by decide) (by decide)

/-- C5: an absolute inbound URL is used unchanged; a relative target over
a non-TLS listener with Host h, path p (empty or slash-initial, with no
character the path mode escapes) and raw query q resolves to
"http://" ++ h ++ p with "?" ++ q appended exactly when q is non-empty. -/
theorem buildTargetURL_spec (r : Request) :
    (r.urlIsAbs = true → buildTargetURL r = r.urlStr) ∧
    (r.urlIsAbs = false → r.tls = false →
      (r.path = "" ∨ startsWithSlash r.path = true) →
      (∀ c ∈ r.path.data, shouldEscapePath c = false) →
      (∀ c ∈ r.host.data, shouldEscapeHost c = false) →
      (r.host ≠ "" ∨ r.path ≠ "") →
      buildTargetURL r =
        "http://" ++ r.host ++ r.path ++
          (if r.rawQuery = "" then "" else "?" ++ r.rawQuery)) := by
  constructor
  · intro h
    simp [buildTargetURL, h]
  · intro habs htls hslash hpc hhc hne
    have hstar : (r.path == "*") = false := by
      rcases hslash with h | h
      · rw [h]
        decide
      · by_contra hc
        rw [Bool.not_eq_false, beq_iff_eq] at hc
        rw [hc] at h
        simp [startsWithSlash] at h
    have hesc : escapedPath r.path = r.path := by
      simp only [escapedPath, hstar, Bool.false_eq_true, if_false]
      exact escapeGo_eq_self _ _ hpc
    have hhost : (if r.host ≠ "" then escapeGo shouldEscapeHost r.host
        else "") = r.host := by
      by_cases hh : r.host = ""
      · simp [hh]
      · simp [hh, escapeGo_eq_self _ _ hhc]
    simp only [buildTargetURL, habs, Bool.false_eq_true, if_false, htls,
      urlString, hesc, hhost, hne, if_pos]
    have hpp : (if r.path ≠ "" ∧ startsWithSlash r.path = false ∧ r.host ≠ ""
        then "/" ++ r.path else r.path) = r.path := by
      rcases hslash with h | h
      · simp [h]
      · simp [h]
    rw [hpp]
    have hq : (if r.rawQuery ≠ "" then "?" ++ r.rawQuery else "")
        = (if r.rawQuery = "" then "" else "?" ++ r.rawQuery) := by
      by_cases hqe : r.rawQuery = ""
      · simp [hqe]
      · simp [hqe]
    rw [hq, show ("http" : String) ++ ":" ++ "//" = "http://" from rfl]

/-- C5 witness: a concrete relative request over the plain listener with
Host example.com, path /a/b and query x=1 resolves to
"http://example.com/a/b?x=1", and a concrete absolute request is
forwarded to its own URL unchanged. -/
theorem buildTargetURL_spec_witness :
    buildTargetURL
      { method := "GET", urlIsAbs := false, urlStr := "",
        host := "example.com", path := "/a/b", rawQuery := "x=1",
        tls := false, headers := [], body := ⟨[], none⟩ }
      = "http://example.com/a/b?x=1" ∧
    buildTargetURL
      { method := "GET", urlIsAbs := true,
        urlStr := "http://api.github.com/zen", host := "",
        path := "", rawQuery := "", tls := false, headers := [],
        body := ⟨[], none⟩ }
      = "http://api.github.com/zen" := by
  constructor
  · have h := (buildTargetURL_spec
      { method := "GET", urlIsAbs := false, urlStr := "",
        host := "example.com", path := "/a/b", rawQuery := "x=1",
        tls := false, headers := [], body := ⟨[], none⟩ }).2
      rfl rfl (Or.inr (by decide)) (by decide) (by decide)
      (Or.inl (by decide))
    rw [h]
    decide
  · exact (buildTargetURL_spec
      { method := "GET", urlIsAbs := true,
        urlStr := "http://api.github.com/zen", host := "",
        path := "", rawQuery := "", tls := false, headers := [],
        body := ⟨[], none⟩ }).1 rfl

/-- C1: whenever the HTTP response phase forwards, the body written back
to the original caller is exactly the byte sequence the bounded read
produced from the origin — even when Content-Encoding handling produces
a decompressed copy, that copy goes only to the display field — and the
status and headers are the origin's. -/
theorem responsePhase_forwards_raw_bytes {R : Type} (gz : GzipLib R)
    (cfg : Config) (resp : OriginResponse) (st : Nat) (hs : Header)
    (body disp : List Byte)
    (h : responsePhase gz cfg resp = .forwarded st hs body disp) :
    body = (readLimitedBody resp.body cfg.maxBodySize).1 ∧
    disp = decompressIfNeeded gz (readLimitedBody resp.body cfg.maxBodySize).1
      resp.headers ∧
    st = resp.statusCode ∧ hs = resp.headers := by
  simp only [responsePhase] at h
  split at h
  · cases h
  · injection h with h1 h2 h3 h4
    exact ⟨h3.symm, h4.symm, h1.symm, h2.symm⟩

/-- C1 witness: a concrete gzip-declaring origin response whose display
copy differs from the wire bytes; the forwarded bytes are still the raw
bytes of the bounded read. -/
theorem responsePhase_forwards_raw_bytes_witness :
    ([31, 139, 8] : List Byte) =
      (readLimitedBody ⟨[31, 139, 8, 99], none⟩ 3).1 ∧
    ([72, 105] : List Byte) =
      decompressIfNeeded
        (⟨fun _ => .ok (), fun _ => .ok [72, 105]⟩ : GzipLib Unit)
        (readLimitedBody ⟨[31, 139, 8, 99], none⟩ 3).1
        [("Content-Encoding", ["gzip"])] ∧
    (200 : Nat) = 200 ∧
    ([("Content-Encoding", ["gzip"])] : Header) =
      [("Content-Encoding", ["gzip"])] :=
  responsePhase_forwards_raw_bytes
    (⟨fun _ => .ok (), fun _ => .ok [72, 105]⟩ : GzipLib Unit)
    ⟨8080, 30, 30, 3⟩
    ⟨200, [("Content-Encoding", ["gzip"])], ⟨[31, 139, 8, 99], none⟩⟩
    200 [("Content-Encoding", ["gzip"])] [31, 139, 8] [72, 105] (by rfl)

/-- C2 (the code at the failing input): with maximum body size 4 and an
inbound request body of 5 bytes, the bounded read reports no error, so
the request phase does not reject with 413 — it hands the outbound
dispatch a request carrying the silently truncated 4-byte body, and the
full pipeline forwards the origin's answer for it. -/
theorem requestPhase_truncates_oversized_body :
    requestPhase ⟨8080, 30, 30, 4⟩
      { method := "POST", urlIsAbs := false, urlStr := "",
        host := "example.com", path := "/upload", rawQuery := "",
        tls := false, headers := [], body := ⟨[7, 7, 7, 7, 7], none⟩ }
      = .ok { method := "POST", url := "http://example.com/upload",
              headers := [], body := [7, 7, 7, 7] } ∧
    handleHTTP (⟨fun _ => .error "", fun _ => .error ""⟩ : GzipLib Unit)
      ⟨8080, 30, 30, 4⟩
      (fun req => .ok ⟨200, [], ⟨req.body, none⟩⟩)
      { method := "POST", urlIsAbs := false, urlStr := "",
        host := "example.com", path := "/upload", rawQuery := "",
        tls := false, headers := [], body := ⟨[7, 7, 7, 7, 7], none⟩ }
      = .forwarded 200 [] [7, 7, 7, 7] [7, 7, 7, 7] := by
  constructor <;> rfl

/-- C3 (the code at the failing input): with maximum body size 4 and an
origin response body of 5 bytes, the bounded read reports no error, so
the response phase does not reject with 502 Bad Gateway — it forwards
the silently truncated 4-byte body to the original caller. -/
theorem responsePhase_truncates_oversized_body :
    responsePhase (⟨fun _ => .error "", fun _ => .error ""⟩ : GzipLib Unit)
      ⟨8080, 30, 30, 4⟩ ⟨200, [], ⟨[9, 9, 9, 9, 9], none⟩⟩
      = .forwarded 200 [] [9, 9, 9, 9] [9, 9, 9, 9] := by rfl

/-- C7 counterexample: in a concrete CONNECT session whose transport
does not support hijacking, the outbound dial to the target IS attempted
(the handler dials before checking hijack support), refuting the claim
that no outbound dial is attempted in that case. -/
theorem handleHTTPS_counterexample :
    handleHTTPS ⟨.ok (), false, .ok ()⟩ "example.com:443"
      = [.dialAttempt "example.com:443", .wroteStatus 200,
         .errorCall 500 "Hijacking not supported"] ∧
    ConnectEvent.dialAttempt "example.com:443" ∈
      handleHTTPS ⟨.ok (), false, .ok ()⟩ "example.com:443" := by
  constructor
  · rfl
  · decide

/-- C7 amended: when the transport does not support hijacking and the
dial succeeded, the CONNECT handler invokes the internal-error (500)
rejection path and starts no tunnel — but the outbound dial has already
been attempted (it always happens first), and the 200 success status has
already been written, so the 500 status write does not reach the wire. -/
theorem handleHTTPS_hijack_unsupported (env : ConnectEnv) (host : String)
    (hd : env.dialResult = .ok ()) (hh : env.hijackSupported = false) :
    handleHTTPS env host
      = [.dialAttempt host, .wroteStatus 200,
         .errorCall 500 "Hijacking not supported"] ∧
    ConnectEvent.tunnelStarted ∉ handleHTTPS env host := by
  have htrace : handleHTTPS env host
      = [.dialAttempt host, .wroteStatus 200,
         .errorCall 500 "Hijacking not supported"] := by
    simp [handleHTTPS, hd, hh]
  refine ⟨htrace, ?_⟩
  rw [htrace]
  simp

/-- C7 amended witness: a concrete hijack-unsupported session (distinct
from the counterexample input) exhibits the amended behavior. -/
theorem handleHTTPS_hijack_unsupported_witness :
    handleHTTPS ⟨.ok (), false, .error "no hijack"⟩ "internal.test:443"
      = [.dialAttempt "internal.test:443", .wroteStatus 200,
         .errorCall 500 "Hijacking not supported"] ∧
    ConnectEvent.tunnelStarted ∉
      handleHTTPS ⟨.ok (), false, .error "no hijack"⟩ "internal.test:443" :=
  handleHTTPS_hijack_unsupported ⟨.ok (), false, .error "no hijack"⟩
    "internal.test:443" rfl rfl

end Lucy
